import Mathlib

/-!
Shallow embedding of the confluence-rs RPC/XML core.

The wire tree, path navigation and typed extraction are transcribed from
src/rpser/xml.rs; domain marshaling from src/transforms.rs; the session,
logout and dispatch logic from src/lib.rs.  Machine integers are modelled
as Int with explicit range checks where the source parses i64/i32.  The
external transport and the response deserializer living outside src/ are
taken as explicit parameters, so every statement about the session layer
holds for all transports and all deserializers.
-/

namespace Confluence

mutual

/-- xmltree Element: name, string-keyed attributes (unique keys), ordered children. -/
inductive Element where
  | mk (name : String) (attributes : List (String × String)) (children : List XMLNode)

/-- xmltree XMLNode: an element, a text chunk, or a CDATA chunk.  Comment and
processing-instruction constructors are omitted: the crate never builds them and
only ever matches them with wildcard arms, so they behave exactly like CData here. -/
inductive XMLNode where
  | Element (e : Element)
  | Text (s : String)
  | CData (s : String)

end

def Element.name : Element → String
  | .mk n _ _ => n

def Element.attributes : Element → List (String × String)
  | .mk _ a _ => a

def Element.children : Element → List XMLNode
  | .mk _ _ c => c

/-- rpser::xml::Error.  The inner ParseIntError / chrono ParseError payloads are
foreign opaque values never inspected by the crate, so they are dropped here. -/
inductive XmlError where
  | NotFoundAtPath (path : List String)
  | ExpectedNotEmpty (parent : String)
  | ExpectedElement (found : XMLNode)
  | ExpectedElementWithType (name : String) (expected_type : String) (given : Option String)
  | ParseIntError (name : String)
  | ParseDateTimeError (name : String)

/-- The descend loop in the source scans children in order and acts on the first
child element whose name equals the next path segment; List.find? with this
predicate is exactly that scan. -/
def isElementNamed (p : String) : XMLNode → Bool
  | .Element child => child.name == p
  | _ => false

/-- The match both traversals run on the result of the recursive call: a success
passes through, a NotFoundAtPath error has the current segment prepended as the
error unwinds (the remaining arm is the unreachable branch of the source). -/
def prependSeg (p : String) : Except XmlError XMLNode → Except XmlError XMLNode
  | .ok found => .ok found
  | .error (.NotFoundAtPath errorPath) => .error (.NotFoundAtPath (p :: errorPath))
  | .error other => .error other

/-- BuildElement::descend for Element (src/rpser/xml.rs).  Empty path returns the
tree wrapped as an element node; otherwise the first matching child element is
entered and a NotFoundAtPath error has the current segment prepended on unwind. -/
def Element.descend (e : Element) (path : List String) : Except XmlError XMLNode :=
  match path with
  | [] => .ok (.Element e)
  | p :: rest =>
    match e.children.find? (isElementNamed p) with
    | some (.Element child) => prependSeg p (child.descend rest)
    | _ => .error (.NotFoundAtPath [p])

/-- BuildElement::get_at_path for Element (src/rpser/xml.rs): the non-consuming
traversal; identical matching rule and error accumulation, returning a clone
(clones are identities in this pure model). -/
def Element.get_at_path (e : Element) (path : List String) : Except XmlError XMLNode :=
  match path with
  | [] => .ok (.Element e)
  | p :: rest =>
    match e.children.find? (isElementNamed p) with
    | some (.Element child) => prependSeg p (child.get_at_path rest)
    | _ => .error (.NotFoundAtPath [p])

/-- BuildElement::descend_first for Element. -/
def Element.descend_first (e : Element) : Except XmlError XMLNode :=
  match e.children with
  | [] => .error (.ExpectedNotEmpty e.name)
  | c :: _ => .ok c

/-- xmltree Element::get_text: concatenation of the text-like children, None when
there are none. -/
def Element.get_text (e : Element) : Option String :=
  e.children.foldl
    (fun acc c =>
      match c with
      | .Text s => some (acc.getD "" ++ s)
      | .CData s => some (acc.getD "" ++ s)
      | _ => acc)
    none

/-- xmltree XMLNode::as_text: the string of a text node, None otherwise. -/
def XMLNode.as_text : XMLNode → Option String
  | .Text s => some s
  | _ => none

/-- EnhancedNode::into_element (src/rpser/xml.rs). -/
def XMLNode.into_element : XMLNode → Except XmlError Confluence.Element
  | .Element element => .ok element
  | node => .error (.ExpectedElement node)

/-- EnhancedNode::expect_element (src/rpser/xml.rs). -/
def XMLNode.expect_element : XMLNode → Except XmlError Confluence.Element
  | .Element element => .ok element
  | node => .error (.ExpectedElement node)

/-- Rust str::ends_with on the character sequence. -/
def strEndsWith (s suffix : String) : Bool :=
  suffix.data.isSuffixOf s.data

/-- get_typed_string (src/rpser/xml.rs): require a type attribute whose value
ends with the requested wire type and a present text body; any other shape is
an ExpectedElementWithType error carrying the declared type that was found. -/
def get_typed_string (element : Element) (value_type : String) : Except XmlError String :=
  match element.attributes.lookup "type", element.get_text with
  | some value, some text =>
    if strEndsWith value value_type then .ok text
    else .error (.ExpectedElementWithType element.name ("*:" ++ value_type) (some value))
  | other_type, _ =>
    .error (.ExpectedElementWithType element.name ("*:" ++ value_type) other_type)

/-- the generic parse helper (src/rpser/xml.rs): expect an element, pull the
typed string, then run the primitive parser, mapping its failure through the
given error constructor with the element name. -/
def parse {α : Type} (parseFn : String → Option α) (node : XMLNode) (value_type : String)
    (errMapper : String → XmlError) : Except XmlError α := do
  let element ← node.expect_element
  let text ← get_typed_string element value_type
  match parseFn text with
  | some value => .ok value
  | none => .error (errMapper element.name)

/-- digit-run accumulation of Rust integer parsing: at least one character, all
ASCII digits. -/
def digitsValue : List Char → Option Nat
  | [] => none
  | cs =>
    cs.foldlM
      (fun acc c => if c.isDigit then some (acc * 10 + (c.toNat - 48)) else none)
      0

/-- Rust str::parse for integers: optional sign, then digits. -/
def parseRustInt (s : String) : Option Int :=
  match s.data with
  | '-' :: rest => (digitsValue rest).map fun n => -(n : Int)
  | '+' :: rest => (digitsValue rest).map fun n => (n : Int)
  | cs => (digitsValue cs).map fun n => (n : Int)

/-- i64 parsing: reject values outside the 64-bit signed range. -/
def parseI64 (s : String) : Option Int :=
  (parseRustInt s).bind fun i =>
    if -(2 ^ 63) ≤ i ∧ i ≤ 2 ^ 63 - 1 then some i else none

/-- i32 parsing: reject values outside the 32-bit signed range. -/
def parseI32 (s : String) : Option Int :=
  (parseRustInt s).bind fun i =>
    if -(2 ^ 31) ≤ i ∧ i ≤ 2 ^ 31 - 1 then some i else none

/-- EnhancedNode::as_long. -/
def XMLNode.as_long (node : XMLNode) : Except XmlError Int :=
  parse parseI64 node "long" XmlError.ParseIntError

/-- EnhancedNode::as_int. -/
def XMLNode.as_int (node : XMLNode) : Except XmlError Int :=
  parse parseI32 node "int" XmlError.ParseIntError

/-- EnhancedNode::as_boolean: lenient, the result is the comparison of the text
with "true", never a parse error. -/
def XMLNode.as_boolean (node : XMLNode) : Except XmlError Bool := do
  let element ← node.expect_element
  let text ← get_typed_string element "boolean"
  return text == "true"

/-- EnhancedNode::as_string. -/
def XMLNode.as_string (node : XMLNode) : Except XmlError String := do
  let element ← node.expect_element
  get_typed_string element "string"

/-- EnhancedNode::as_datetime.  The chrono datetime grammar is external to this
crate: the primitive parser is a parameter and the timestamp value is opaque. -/
def XMLNode.as_datetime (dtp : String → Option Int) (node : XMLNode) : Except XmlError Int :=
  parse dtp node "dateTime" XmlError.ParseDateTimeError

/-- BuildElement::node. -/
def Element.node (name : String) : Element := .mk name [] []

/-- BuildElement::with_text: pushes a text child. -/
def Element.with_text (e : Element) (text : String) : Element :=
  .mk e.name e.attributes (e.children ++ [.Text text])

/-- HashMap::insert on a unique-keys association list: last write wins. -/
def insertAttr : List (String × String) → String → String → List (String × String)
  | [], key, value => [(key, value)]
  | (k, v) :: rest, key, value =>
    if k == key then (key, value) :: rest else (k, v) :: insertAttr rest key value

/-- BuildElement::with_attr. -/
def Element.with_attr (e : Element) (key value : String) : Element :=
  .mk e.name (insertAttr e.attributes key value) e.children

/-- BuildElement::with_child. -/
def Element.with_child (e : Element) (child : Element) : Element :=
  .mk e.name e.attributes (e.children ++ [.Element child])

/-- BuildElement::with_children. -/
def Element.with_children (e : Element) (cs : List Element) : Element :=
  .mk e.name e.attributes (e.children ++ cs.map XMLNode.Element)

/-- Domain record Space.  The struct lives in space.rs, outside the provided
sources; field names and types are forced by the construction site in
src/transforms.rs (i64 home_page, optional description and space_group). -/
structure Space where
  description : Option String
  home_page : Int
  key : String
  name : String
  space_group : Option String
  space_type : String
  url : String

/-- Domain record Page (page.rs outside the provided sources; fields forced by
src/transforms.rs).  DateTime values are opaque Int timestamps. -/
structure Page where
  id : Int
  space : String
  parent_id : Int
  title : String
  url : String
  version : Int
  content : String
  created : Int
  creator : String
  modified : Int
  modifier : String
  home_page : Bool
  content_status : String
  current : Bool

/-- Domain record PageSummary (fields forced by src/transforms.rs). -/
structure PageSummary where
  id : Int
  space : String
  parent_id : Int
  title : String
  url : String

/-- Domain record RemoteServerInfo (src/server_info.rs). -/
structure RemoteServerInfo where
  base_url : Option String
  build_id : Option String
  development_build : Bool
  major_version : Int
  minor_version : Int
  patch_level : Int

/-- Domain record AttachmentResponse (src/attachment.rs). -/
structure AttachmentResponse where
  comment : Option String
  content_type : Option String
  created : Option Int
  creator : Option String
  file_name : Option String
  file_size : Int
  id : Int
  page_id : Int
  title : Option String
  url : Option String

/-- FromXMLNode for Space (src/transforms.rs).  Field initializers run in the
written order with fail-fast propagation on each question-mark; note that
description and space_group apply as_text to the node returned by get_at_path
and that space_group reads the path ["name"]. -/
def Space.from_node : XMLNode → Except XmlError Space
  | .Element element => do
    let descriptionNode ← element.get_at_path ["description"]
    let home_page ← (element.get_at_path ["homePage"]).bind XMLNode.as_long
    let key ← (element.get_at_path ["key"]).bind XMLNode.as_string
    let name ← (element.get_at_path ["name"]).bind XMLNode.as_string
    let spaceGroupNode ← element.get_at_path ["name"]
    let space_type ← (element.get_at_path ["type"]).bind XMLNode.as_string
    let url ← (element.get_at_path ["url"]).bind XMLNode.as_string
    .ok { description := descriptionNode.as_text, home_page, key, name,
          space_group := spaceGroupNode.as_text, space_type, url }
  | node => .error (.ExpectedElement node)

/-- FromXMLNode for Page (src/transforms.rs); every field is required. -/
def Page.from_node (dtp : String → Option Int) : XMLNode → Except XmlError Page
  | .Element element => do
    let id ← (element.get_at_path ["id"]).bind XMLNode.as_long
    let space ← (element.get_at_path ["space"]).bind XMLNode.as_string
    let parent_id ← (element.get_at_path ["parentId"]).bind XMLNode.as_long
    let title ← (element.get_at_path ["title"]).bind XMLNode.as_string
    let url ← (element.get_at_path ["url"]).bind XMLNode.as_string
    let version ← (element.get_at_path ["version"]).bind XMLNode.as_int
    let content ← (element.get_at_path ["content"]).bind XMLNode.as_string
    let created ← (element.get_at_path ["created"]).bind (XMLNode.as_datetime dtp)
    let creator ← (element.get_at_path ["creator"]).bind XMLNode.as_string
    let modified ← (element.get_at_path ["modified"]).bind (XMLNode.as_datetime dtp)
    let modifier ← (element.get_at_path ["modifier"]).bind XMLNode.as_string
    let home_page ← (element.get_at_path ["homePage"]).bind XMLNode.as_boolean
    let content_status ← (element.get_at_path ["contentStatus"]).bind XMLNode.as_string
    let current ← (element.get_at_path ["current"]).bind XMLNode.as_boolean
    .ok { id, space, parent_id, title, url, version, content, created, creator,
          modified, modifier, home_page, content_status, current }
  | node => .error (.ExpectedElement node)

/-- FromXMLNode for PageSummary (src/transforms.rs); every field is required. -/
def PageSummary.from_node : XMLNode → Except XmlError PageSummary
  | .Element element => do
    let id ← (element.get_at_path ["id"]).bind XMLNode.as_long
    let space ← (element.get_at_path ["space"]).bind XMLNode.as_string
    let parent_id ← (element.get_at_path ["parentId"]).bind XMLNode.as_long
    let title ← (element.get_at_path ["title"]).bind XMLNode.as_string
    let url ← (element.get_at_path ["url"]).bind XMLNode.as_string
    .ok { id, space, parent_id, title, url }
  | node => .error (.ExpectedElement node)

/-- FromXMLNode for RemoteServerInfo (src/transforms.rs): base_url and build_id
degrade to None through Result::ok, the rest are required. -/
def RemoteServerInfo.from_node : XMLNode → Except XmlError RemoteServerInfo
  | .Element element => do
    let base_url := ((element.get_at_path ["baseUrl"]).bind XMLNode.as_string).toOption
    let build_id := ((element.get_at_path ["buildId"]).bind XMLNode.as_string).toOption
    let development_build ← (element.get_at_path ["developmentBuild"]).bind XMLNode.as_boolean
    let major_version ← (element.get_at_path ["majorVersion"]).bind XMLNode.as_int
    let minor_version ← (element.get_at_path ["minorVersion"]).bind XMLNode.as_int
    let patch_level ← (element.get_at_path ["patchLevel"]).bind XMLNode.as_int
    .ok { base_url, build_id, development_build, major_version, minor_version, patch_level }
  | node => .error (.ExpectedElement node)

/-- FromXMLNode for AttachmentResponse (src/transforms.rs): the Option-typed
fields degrade to None through Result::ok, file_size, id and page_id are
required, in the written order. -/
def AttachmentResponse.from_node (dtp : String → Option Int) :
    XMLNode → Except XmlError AttachmentResponse
  | .Element element => do
    let comment := ((element.get_at_path ["comment"]).bind XMLNode.as_string).toOption
    let content_type := ((element.get_at_path ["contentType"]).bind XMLNode.as_string).toOption
    let created := ((element.get_at_path ["created"]).bind (XMLNode.as_datetime dtp)).toOption
    let creator := ((element.get_at_path ["creator"]).bind XMLNode.as_string).toOption
    let file_name := ((element.get_at_path ["fileName"]).bind XMLNode.as_string).toOption
    let file_size ← (element.get_at_path ["fileSize"]).bind XMLNode.as_long
    let id ← (element.get_at_path ["id"]).bind XMLNode.as_long
    let page_id ← (element.get_at_path ["pageId"]).bind XMLNode.as_long
    let title := ((element.get_at_path ["title"]).bind XMLNode.as_string).toOption
    let url := ((element.get_at_path ["url"]).bind XMLNode.as_string).toOption
    .ok { comment, content_type, created, creator, file_name, file_size, id,
          page_id, title, url }
  | node => .error (.ExpectedElement node)

/-- The marshaling loop of Session::get_children (src/lib.rs): turn the node
into an element, then marshal every direct child in order, failing the whole
list on the first failing child. -/
def get_children_marshal (node : XMLNode) : Except XmlError (List PageSummary) := do
  let element ← node.into_element
  element.children.mapM PageSummary.from_node

/-- Modelled from the spec: the operation directory projected out of the fetched
service description, a read-only mapping from operation name to endpoint URL
(wsdl.rs is not among the provided sources; only this projection is used). -/
structure Wsdl where
  operations : List (String × String)

/-- Modelled from the spec: an outbound call, a method name with ordered
parameter sub-trees (rpser/mod.rs is not among the provided sources). -/
structure Method where
  name : String
  args : List Element

/-- Modelled from the spec: the outbound serialization wraps the parameters, in
order, inside a method-named element inside a fixed envelope/body skeleton. -/
def Method.as_xml (m : Method) (url : String) : Element :=
  (Element.node "Envelope").with_child
    ((Element.node "Body").with_child
      (((Element.node m.name).with_attr "xmlns" url).with_children m.args))

/-- Modelled from the spec: RPC-layer errors (rpser/mod.rs is not among the
provided sources): a remote fault, a malformed document, or an XML
navigation/typing error lifted by From. -/
inductive RpcError where
  | Fault (code message : String)
  | MalformedDocument (message : String)
  | Xml (e : XmlError)

/-- Modelled from the spec: the deserialized inbound envelope exposing the body
sub-tree (rpser::Response, used as response.body in src/lib.rs). -/
structure RpcResponse where
  body : Element

/-- The crate-level Error enum of src/lib.rs (Io and Http carry foreign payloads,
kept as strings). -/
inductive ConfError where
  | MethodNotFoundInWsdl (name : String)
  | ReceivedNoLoginToken
  | Io (message : String)
  | Http (message : String)
  | Rpc (e : RpcError)

/-- The external transport boundary: http::soap_action reduced to its effect,
url and action and serialized envelope in, response body text or HTTP failure
out.  Every session-layer statement is universally quantified over it. -/
abbrev Transport := String → String → Element → Except String String

/-- The response deserializer rpser::Response::from_xml (rpser/mod.rs is not
among the provided sources); taken as a parameter, so statements hold for every
deserializer the spec allows. -/
abbrev RespDecode := String → Except RpcError RpcResponse

/-- Session state: auth token plus operation directory (src/lib.rs).  The
reqwest client handle carries no modelled state and is subsumed by the
Transport parameter. -/
structure Session where
  token : String
  wsdl : Wsdl

/-- Session::internal_call (src/lib.rs): resolve the endpoint in the directory
first, returning MethodNotFoundInWsdl before anything else; otherwise serialize
and perform exactly one transport round trip, then deserialize.  The Nat
component counts transport invocations. -/
def internal_call (m : Method) (wsdl : Wsdl) (tr : Transport) (de : RespDecode) :
    Except ConfError RpcResponse × Nat :=
  match wsdl.operations.lookup m.name with
  | none => (.error (.MethodNotFoundInWsdl m.name), 0)
  | some url =>
    match tr url m.name (m.as_xml url) with
    | .error e => (.error (.Http e), 1)
    | .ok bodyText =>
      match de bodyText with
      | .error e => (.error (.Rpc e), 1)
      | .ok response => (.ok response, 1)

/-- Session::method (src/lib.rs): a method with the session token as first
parameter. -/
def Session.method (s : Session) (name : String) : Method :=
  ⟨name, [(Element.node "token").with_text s.token]⟩

/-- Session::call (src/lib.rs): delegates to internal_call with the session
directory. -/
def Session.call (s : Session) (m : Method) (tr : Transport) (de : RespDecode) :
    Except ConfError RpcResponse × Nat :=
  internal_call m s.wsdl tr de

/-- Session::internal_logout (src/lib.rs).  With an empty token it performs no
call and returns false; otherwise it invokes the remote logout operation and
reports whether the response text under logoutReturn is "true".  The returned
session is the state after the call: the source never assigns to self.token in
this function, so the token field is returned unchanged. -/
def Session.internal_logout (s : Session) (tr : Transport) (de : RespDecode) :
    Session × Except ConfError Bool × Nat :=
  if s.token == "" then
    (s, .ok false, 0)
  else
    match s.call (s.method "logout") tr de with
    | (.error e, n) => (s, .error e, n)
    | (.ok response, n) =>
      match response.body.descend ["logoutReturn"] with
      | .error e => (s, .error (.Rpc (.Xml e)), n)
      | .ok node =>
        match node.expect_element with
        | .error e => (s, .error (.Rpc (.Xml e)), n)
        | .ok element =>
          match element.get_text with
          | some v => if v == "true" then (s, .ok true, n) else (s, .ok false, n)
          | none => (s, .ok false, n)

/-- Outcome of Drop for Session (src/lib.rs): the drop glue calls
block_on(internal_logout).unwrap(), so an Err from the cleanup panics the
thread instead of being logged. -/
inductive DropOutcome where
  | returned
  | panicked

/-- The Drop implementation for Session (src/lib.rs), with the transport
invocation count of the implicit cleanup. -/
def Session.drop_glue (s : Session) (tr : Transport) (de : RespDecode) : DropOutcome × Nat :=
  match s.internal_logout tr de with
  | (_, .ok _, n) => (.returned, n)
  | (_, .error _, n) => (.panicked, n)

/-- Session::logout (src/lib.rs) followed by the scope exit of the consumed
session: the public logout runs internal_logout, then Drop runs on the same
state.  Result of the explicit logout, drop outcome, and total transport calls. -/
def Session.logout_then_drop (s : Session) (tr : Transport) (de : RespDecode) :
    Except ConfError Bool × DropOutcome × Nat :=
  match s.internal_logout tr de with
  | (s1, r1, n1) =>
    match s1.drop_glue tr de with
    | (outcome, n2) => (r1, outcome, n1 + n2)

/-! Helper lemmas about the traversal. -/

theorem except_ok_bind {ε α β : Type} (a : α) (f : α → Except ε β) :
    (Except.ok a : Except ε α) >>= f = f a := rfl

theorem except_error_bind {ε α β : Type} (e : ε) (f : α → Except ε β) :
    (Except.error e : Except ε α) >>= f = .error e := rfl

theorem prependSeg_ok {p : String} {r : Except XmlError XMLNode} {v : XMLNode} :
    prependSeg p r = .ok v ↔ r = .ok v := by
  cases r with
  | ok w => simp [prependSeg]
  | error e => cases e <;> simp [prependSeg]

theorem prependSeg_of_notfound {p : String} {r : Except XmlError XMLNode} {q : List String}
    (h : r = .error (.NotFoundAtPath q)) :
    prependSeg p r = .error (.NotFoundAtPath (p :: q)) := by
  subst h; rfl

theorem descend_error_shape : ∀ (p : List String) (t : Element) (err : XmlError),
    t.descend p = .error err → ∃ q, err = .NotFoundAtPath q := by
  intro p
  induction p with
  | nil => intro t err h; simp [Element.descend] at h
  | cons p rest ih =>
    intro t err h
    simp only [Element.descend] at h
    rcases hf : t.children.find? (isElementNamed p) with _ | c
    · rw [hf] at h
      simp at h
      exact ⟨[p], h.symm⟩
    · cases c with
      | Element child =>
        simp only [hf] at h
        rcases hr : child.descend rest with e2 | v
        · obtain ⟨q2, hq2⟩ := ih child e2 hr
          subst hq2
          rw [prependSeg_of_notfound hr] at h
          exact ⟨p :: q2, by injection h with h; exact h.symm⟩
        · rw [hr] at h; simp [prependSeg] at h
      | Text s => rw [hf] at h; simp at h; exact ⟨[p], h.symm⟩
      | CData s => rw [hf] at h; simp at h; exact ⟨[p], h.symm⟩

theorem descend_ok_element : ∀ (p : List String) (t : Element) (n : XMLNode),
    t.descend p = .ok n → ∃ e, n = .Element e := by
  intro p
  induction p with
  | nil => intro t n h; simp [Element.descend] at h; exact ⟨t, h.symm⟩
  | cons p rest ih =>
    intro t n h
    simp only [Element.descend] at h
    rcases hf : t.children.find? (isElementNamed p) with _ | c
    · rw [hf] at h; simp at h
    · rw [hf] at h
      cases c with
      | Element child => exact ih child n (prependSeg_ok.mp h)
      | Text s => simp at h
      | CData s => simp at h

theorem get_at_path_eq_descend : ∀ (p : List String) (t : Element),
    t.get_at_path p = t.descend p := by
  intro p
  induction p with
  | nil => intro t; rfl
  | cons p rest ih =>
    intro t
    simp only [Element.get_at_path, Element.descend]
    rcases hf : t.children.find? (isElementNamed p) with _ | c
    · rfl
    · cases c with
      | Element child => simp only [ih child]
      | Text s => rfl
      | CData s => rfl

theorem descend_append_ok : ∀ (p1 : List String) (t e : Element) (p2 : List String) (r : XMLNode),
    t.descend p1 = .ok (.Element e) → e.descend p2 = .ok r →
    t.descend (p1 ++ p2) = .ok r := by
  intro p1
  induction p1 with
  | nil =>
    intro t e p2 r h1 h2
    simp only [Element.descend, Except.ok.injEq, XMLNode.Element.injEq] at h1
    subst h1
    simpa using h2
  | cons p rest ih =>
    intro t e p2 r h1 h2
    simp only [Element.descend] at h1
    rcases hf : t.children.find? (isElementNamed p) with _ | c
    · rw [hf] at h1; simp at h1
    · rw [hf] at h1
      cases c with
      | Element child =>
        have h1' := prependSeg_ok.mp h1
        simp only [List.cons_append, Element.descend, hf]
        exact prependSeg_ok.mpr (ih child e p2 r h1' h2)
      | Text s => simp at h1
      | CData s => simp at h1

theorem descend_append_notfound :
    ∀ (p1 : List String) (t e : Element) (p2 q : List String),
    t.descend p1 = .ok (.Element e) → e.descend p2 = .error (.NotFoundAtPath q) →
    t.descend (p1 ++ p2) = .error (.NotFoundAtPath (p1 ++ q)) := by
  intro p1
  induction p1 with
  | nil =>
    intro t e p2 q h1 h2
    simp only [Element.descend, Except.ok.injEq, XMLNode.Element.injEq] at h1
    subst h1
    simpa using h2
  | cons p rest ih =>
    intro t e p2 q h1 h2
    simp only [Element.descend] at h1
    rcases hf : t.children.find? (isElementNamed p) with _ | c
    · rw [hf] at h1; simp at h1
    · rw [hf] at h1
      cases c with
      | Element child =>
        have h1' := prependSeg_ok.mp h1
        simp only [List.cons_append, Element.descend, hf]
        exact prependSeg_of_notfound (ih child e p2 q h1' h2)
      | Text s => simp at h1
      | CData s => simp at h1

theorem descend_notfound_pre : ∀ (p : List String) (t : Element) (q : List String),
    t.descend p = .error (.NotFoundAtPath q) → q ≠ [] ∧ q <+: p := by
  intro p
  induction p with
  | nil => intro t q h; simp [Element.descend] at h
  | cons p rest ih =>
    intro t q h
    simp only [Element.descend] at h
    rcases hf : t.children.find? (isElementNamed p) with _ | c
    · rw [hf] at h
      simp only [Except.error.injEq, XmlError.NotFoundAtPath.injEq] at h
      subst h
      exact ⟨by simp, by simp⟩
    · cases c with
      | Element child =>
        simp only [hf] at h
        rcases hr : child.descend rest with e2 | v
        · obtain ⟨q2, hq2⟩ := descend_error_shape rest child e2 hr
          subst hq2
          rw [prependSeg_of_notfound hr] at h
          simp only [Except.error.injEq, XmlError.NotFoundAtPath.injEq] at h
          subst h
          obtain ⟨hne, hpre⟩ := ih child q2 hr
          exact ⟨by simp, by simpa using hpre⟩
        · rw [hr] at h; simp [prependSeg] at h
      | Text s =>
        rw [hf] at h
        simp only [Except.error.injEq, XmlError.NotFoundAtPath.injEq] at h
        subst h
        exact ⟨by simp, by simp⟩
      | CData s =>
        rw [hf] at h
        simp only [Except.error.injEq, XmlError.NotFoundAtPath.injEq] at h
        subst h
        exact ⟨by simp, by simp⟩

theorem descend_single_error (t : Element) (x : String) (err : XmlError)
    (h : t.descend [x] = .error err) : err = .NotFoundAtPath [x] := by
  simp only [Element.descend] at h
  rcases hf : t.children.find? (isElementNamed x) with _ | c
  · rw [hf] at h; simp at h; exact h.symm
  · rw [hf] at h
    cases c with
    | Element child => simp [Element.descend, prependSeg] at h
    | Text s => simp at h; exact h.symm
    | CData s => simp at h; exact h.symm

/-! Spec-side model of descent for the first-match claim. -/

/-- Worded from the spec for the descent claim: the first child element whose
name equals the segment; later same-name siblings, text children and children
with other names are ignored. -/
def firstMatchingChildIn (cs : List XMLNode) (nm : String) : Option Element :=
  cs.findSome? fun c =>
    match c with
    | .Element ce => if ce.name = nm then some ce else none
    | _ => none

/-- Worded from the spec for the descent claim: repeatedly take the first
matching child at each level; the empty path yields the tree itself. -/
def specDescend (e : Element) : List String → Option Element
  | [] => some e
  | nm :: rest =>
    match firstMatchingChildIn e.children nm with
    | some c => specDescend c rest
    | none => none

theorem find?_elem_bridge : ∀ (cs : List XMLNode) (nm : String),
    cs.find? (isElementNamed nm) = (firstMatchingChildIn cs nm).map XMLNode.Element := by
  intro cs nm
  induction cs with
  | nil => simp [firstMatchingChildIn]
  | cons c cs ih =>
    cases c with
    | Element ce =>
      by_cases hn : ce.name = nm
      · simp [firstMatchingChildIn, List.find?_cons, List.findSome?_cons, isElementNamed, hn]
      · have hb : (ce.name == nm) = false := by simp [hn]
        simp only [firstMatchingChildIn, List.find?_cons, List.findSome?_cons, isElementNamed,
          hb, if_neg hn]
        exact ih
    | Text s =>
      simp only [firstMatchingChildIn, List.find?_cons, List.findSome?_cons, isElementNamed] at ih ⊢
      simpa using ih
    | CData s =>
      simp only [firstMatchingChildIn, List.find?_cons, List.findSome?_cons, isElementNamed] at ih ⊢
      simpa using ih

theorem specDescend_descend : ∀ (p : List String) (t : Element),
    (∀ e : Element, specDescend t p = some e ↔ t.descend p = .ok (.Element e)) ∧
    (specDescend t p = none ↔ ∃ q, t.descend p = .error (.NotFoundAtPath q)) := by
  intro p
  induction p with
  | nil =>
    intro t
    constructor
    · intro e
      simp [specDescend, Element.descend]
    · simp [specDescend, Element.descend]
  | cons nm rest ih =>
    intro t
    have hb := find?_elem_bridge t.children nm
    rcases hm : firstMatchingChildIn t.children nm with _ | c
    · rw [hm] at hb
      simp only [Option.map_none'] at hb
      constructor
      · intro e
        simp [specDescend, hm, Element.descend, hb]
      · simp only [specDescend, hm, Element.descend, hb]
        constructor
        · intro _
          exact ⟨[nm], rfl⟩
        · intro _
          trivial
    · rw [hm] at hb
      simp only [Option.map_some'] at hb
      have hspec : specDescend t (nm :: rest) = specDescend c rest := by
        simp [specDescend, hm]
      have hdesc : t.descend (nm :: rest) = prependSeg nm (c.descend rest) := by
        simp [Element.descend, hb]
      constructor
      · intro e
        rw [hspec, hdesc, prependSeg_ok]
        exact (ih c).1 e
      · rw [hspec, hdesc]
        constructor
        · intro hnone
          obtain ⟨q2, hq2⟩ := ((ih c).2).mp hnone
          exact ⟨nm :: q2, prependSeg_of_notfound hq2⟩
        · rintro ⟨q, hq⟩
          rcases hr : c.descend rest with e2 | v
          · obtain ⟨q2, h2⟩ := descend_error_shape rest c e2 hr
            subst h2
            exact ((ih c).2).mpr ⟨q2, hr⟩
          · rw [hr] at hq; simp [prependSeg] at hq

/-! Claim C3. -/

def c3Tree : Element := .mk "root" [] []

/-- Claim C3, counterexample: when the first segment of the two-segment request
["a", "b"] already fails, descend reports NotFoundAtPath ["a"], the one-segment
accumulated prefix, not the full requested path the claim asserts for this
case. -/
theorem c3_counterexample :
    c3Tree.descend ["a", "b"] = .error (.NotFoundAtPath ["a"]) ∧
    ["a"] ≠ ["a", "b"] := ⟨rfl, by decide⟩

/-- Claim C3 (amended): the NotFoundAtPath error of descend carries the walked
prefix of the requested path, ending at the failing segment: it is always a
non-empty prefix of the request, it equals the full requested path whenever
descent fails only at the last segment (all earlier segments succeed), and it
equals the one-segment prefix [p0] when the first segment already fails. -/
theorem c3_error_path_accumulated (t : Element) (p q : List String)
    (h : t.descend p = .error (.NotFoundAtPath q)) :
    (q ≠ [] ∧ q <+: p) ∧
    (∀ e : Element, t.descend p.dropLast = .ok (.Element e) → q = p) ∧
    (∀ p0 ps, p = p0 :: ps → t.descend [p0] = .error (.NotFoundAtPath [p0]) → q = [p0]) := by
  refine ⟨descend_notfound_pre p t q h, ?_, ?_⟩
  · intro e hdl
    have hpne : p ≠ [] := by
      intro hp
      subst hp
      simp [Element.descend] at h
    rcases hr : e.descend [p.getLast hpne] with e2 | v
    · have hshape := descend_single_error e (p.getLast hpne) e2 hr
      subst hshape
      have hall := descend_append_notfound p.dropLast t e [p.getLast hpne] [p.getLast hpne] hdl hr
      rw [List.dropLast_append_getLast hpne] at hall
      rw [h] at hall
      simpa using hall
    · have hall := descend_append_ok p.dropLast t e [p.getLast hpne] v hdl hr
      rw [List.dropLast_append_getLast hpne] at hall
      rw [h] at hall
      simp at hall
  · intro p0 ps hp h0
    subst hp
    simp only [Element.descend] at h h0
    rcases hf : t.children.find? (isElementNamed p0) with _ | c
    · rw [hf] at h
      simpa using h.symm
    · cases c with
      | Element child =>
        simp only [hf] at h0
        simp [Element.descend, prependSeg] at h0
      | Text s =>
        rw [hf] at h
        simpa using h.symm
      | CData s =>
        rw [hf] at h
        simpa using h.symm

def c3WitTree : Element := .mk "root" [] [.Element (.mk "a" [] [])]

/-- Claim C3, witness: on a tree with an empty child "a" and request
["a", "b"], descent fails at the last segment and the error path equals the
full requested path. -/
theorem c3_accumulated_witness :
    ((["a", "b"] : List String) ≠ [] ∧ (["a", "b"] : List String) <+: ["a", "b"]) ∧
    (∀ e : Element, c3WitTree.descend (["a", "b"] : List String).dropLast = .ok (.Element e) →
      (["a", "b"] : List String) = ["a", "b"]) ∧
    (∀ p0 ps, (["a", "b"] : List String) = p0 :: ps →
      c3WitTree.descend [p0] = .error (.NotFoundAtPath [p0]) →
      (["a", "b"] : List String) = [p0]) :=
  c3_error_path_accumulated c3WitTree ["a", "b"] ["a", "b"] rfl

/-! Claim C6. -/

def c6Decoy : Element :=
  .mk "root" []
    [ .Element (.mk "a" [] []),
      .Element (.mk "a" [] [.Element (.mk "b" [] [])]) ]

/-- Claim C6: descend returns the same logical result as repeatedly taking, at
each level, the first child element whose name equals the next path segment;
later siblings with the same name, text children and element children with
other names are ignored (all encoded in specDescend); and an empty path
returns the tree itself wrapped as an element node, not an error. -/
theorem c6_descend_first_match (t : Element) (p : List String) :
    (∀ e : Element, specDescend t p = some e ↔ t.descend p = .ok (.Element e)) ∧
    (specDescend t p = none ↔ ∃ q, t.descend p = .error (.NotFoundAtPath q)) ∧
    t.descend [] = .ok (.Element t) :=
  ⟨(specDescend_descend p t).1, (specDescend_descend p t).2, rfl⟩

/-- Claim C6, witness: on a tree whose first child "a" is an empty decoy, the
first-match rule commits to the decoy, so ["a", "b"] fails even though the
second sibling "a" contains "b"; the empty path returns the tree itself. -/
theorem c6_first_match_witness :
    specDescend c6Decoy ["a", "b"] = none ∧
    c6Decoy.descend ["a", "b"] = .error (.NotFoundAtPath ["a", "b"]) ∧
    c6Decoy.descend [] = .ok (.Element c6Decoy) :=
  ⟨rfl, rfl, (c6_descend_first_match c6Decoy ["a", "b"]).2.2⟩

/-! Claim C7. -/

/-- Claim C7: the non-consuming traversal get_at_path returns exactly the same
result as the consuming traversal descend on every tree and path: the same
node on success and an error of the same shape with the same NotFoundAtPath
path on failure.  Leaving the input unchanged is intrinsic to the pure model
(get_at_path takes its argument by value and cannot mutate it). -/
theorem c7_get_at_path_matches_descend (t : Element) (p : List String) :
    t.get_at_path p = t.descend p :=
  get_at_path_eq_descend p t

theorem except_pure {ε α : Type} (a : α) : (pure a : Except ε α) = .ok a := rfl

/-! Claim C8. -/

/-- Claim C8: for every element node with a type attribute whose suffix matches
"boolean" and present text content, as_boolean succeeds and returns true
exactly when the text is the literal "true" and false for any other text,
never a parse error. -/
theorem c8_boolean_leniency (e : Element) (ty txt : String)
    (h1 : e.attributes.lookup "type" = some ty)
    (h2 : strEndsWith ty "boolean" = true)
    (h3 : e.get_text = some txt) :
    XMLNode.as_boolean (.Element e) = .ok (txt == "true") := by
  simp [XMLNode.as_boolean, XMLNode.expect_element, get_typed_string, h1, h2, h3,
    except_ok_bind, except_pure]

def c8Maybe : Element := .mk "b" [("type", "xsd:boolean")] [.Text "maybe"]

def c8True : Element := .mk "b" [("type", "xsd:boolean")] [.Text "true"]

/-- Claim C8, witness: text "maybe" yields false (not an error), text "true"
yields true. -/
theorem c8_leniency_witness :
    XMLNode.as_boolean (.Element c8Maybe) = .ok false ∧
    XMLNode.as_boolean (.Element c8True) = .ok true :=
  ⟨c8_boolean_leniency c8Maybe "xsd:boolean" "maybe" rfl rfl rfl,
   c8_boolean_leniency c8True "xsd:boolean" "true" rfl rfl rfl⟩

/-! Claim C9. -/

/-- Claim C9: for every typed extractor, an element whose type attribute suffix
matches the requested primitive but whose text content is absent fails with
ExpectedElementWithType carrying the declared type in the given field, not
with a parse error; the datetime case holds for every primitive parser. -/
theorem c9_missing_text_not_parse_error (e : Element) (ty : String)
    (h1 : e.attributes.lookup "type" = some ty)
    (h2 : e.get_text = none) :
    (strEndsWith ty "long" = true →
      XMLNode.as_long (.Element e) =
        .error (.ExpectedElementWithType e.name ("*:" ++ "long") (some ty))) ∧
    (strEndsWith ty "int" = true →
      XMLNode.as_int (.Element e) =
        .error (.ExpectedElementWithType e.name ("*:" ++ "int") (some ty))) ∧
    (strEndsWith ty "boolean" = true →
      XMLNode.as_boolean (.Element e) =
        .error (.ExpectedElementWithType e.name ("*:" ++ "boolean") (some ty))) ∧
    (strEndsWith ty "string" = true →
      XMLNode.as_string (.Element e) =
        .error (.ExpectedElementWithType e.name ("*:" ++ "string") (some ty))) ∧
    (∀ dtp : String → Option Int, strEndsWith ty "dateTime" = true →
      XMLNode.as_datetime dtp (.Element e) =
        .error (.ExpectedElementWithType e.name ("*:" ++ "dateTime") (some ty))) := by
  refine ⟨fun _ => ?_, fun _ => ?_, fun _ => ?_, fun _ => ?_, fun dtp _ => ?_⟩ <;>
    simp [XMLNode.as_long, XMLNode.as_int, XMLNode.as_boolean, XMLNode.as_string,
      XMLNode.as_datetime, parse, XMLNode.expect_element, get_typed_string, h1, h2,
      except_ok_bind, except_error_bind, except_pure]

def c9Leaf : Element := .mk "n" [("type", "xsd:long")] []

/-- Claim C9, witness: a leaf declaring xsd:long with no text body fails with
ExpectedElementWithType reporting the declared type, not with ParseIntError. -/
theorem c9_missing_text_witness :
    XMLNode.as_long (.Element c9Leaf) =
      .error (.ExpectedElementWithType "n" ("*:" ++ "long") (some "xsd:long")) :=
  (c9_missing_text_not_parse_error c9Leaf "xsd:long" rfl rfl).1 rfl

/-! Claim C5. -/

theorem lookup_none_of_not_mem : ∀ (l : List (String × String)) (n : String),
    n ∉ l.map Prod.fst → l.lookup n = none := by
  intro l n
  induction l with
  | nil => intro _; rfl
  | cons kv rest ih =>
    intro hn
    obtain ⟨k, v⟩ := kv
    simp only [List.map_cons, List.mem_cons] at hn
    push_neg at hn
    have hb : (n == k) = false := by simp [hn.1]
    simp [List.lookup, hb, ih hn.2]

/-- Claim C5: invoking call with a method name absent from the operation
directory returns MethodNotFoundInWsdl with that name and performs zero
transport invocations, for every transport and every response deserializer;
absence is literal non-membership of the exact name among the directory keys,
matching the exact-match lookup. -/
theorem c5_method_not_found (s : Session) (m : Method) (tr : Transport) (de : RespDecode)
    (h : m.name ∉ s.wsdl.operations.map Prod.fst) :
    s.call m tr de = (.error (.MethodNotFoundInWsdl m.name), 0) := by
  simp [Session.call, internal_call, lookup_none_of_not_mem s.wsdl.operations m.name h]

/-- Claim C5, witness: a directory holding only the login operation rejects
getPage before any transport call. -/
theorem c5_not_found_witness :
    Session.call ⟨"tok", ⟨[("login", "url")]⟩⟩ ⟨"getPage", []⟩ (fun _ _ _ => .ok "")
      (fun _ => .error (.MalformedDocument "")) =
      (.error (.MethodNotFoundInWsdl "getPage"), 0) :=
  c5_method_not_found ⟨"tok", ⟨[("login", "url")]⟩⟩ ⟨"getPage", []⟩ _ _ (by decide)

/-! Claim C1. -/

def c1Session : Session := ⟨"tok", ⟨[("logout", "u")]⟩⟩

def c1Body : Element := .mk "Body" [] [.Element (.mk "logoutReturn" [] [.Text "true"])]

def c1Tr : Transport := fun _ _ _ => .ok "resp"

def c1De : RespDecode := fun _ => .ok ⟨c1Body⟩

/-- Claim C1, evaluation at the failing input: with a logged-in session (token
"tok"), a directory containing logout and a transport that answers every
logout with a successful response, the empty-token branch behaves as claimed
(third conjunct: no call, benign false), but the source of internal_logout
never clears the token (second conjunct), so an explicit logout followed by
the drop of the session issues two remote logout calls, not one (first
conjunct). -/
theorem c1_logout_not_idempotent_evaluation :
    c1Session.logout_then_drop c1Tr c1De = (.ok true, .returned, 2) ∧
    (c1Session.internal_logout c1Tr c1De).1.token = "tok" ∧
    Session.internal_logout ⟨"", ⟨[("logout", "u")]⟩⟩ c1Tr c1De =
      (⟨"", ⟨[("logout", "u")]⟩⟩, .ok false, 0) :=
  ⟨rfl, rfl, rfl⟩

/-! Claim C2. -/

/-- Claim C2, evaluation at the failing input: dropping a logged-in session
whose logout round trip fails makes the drop glue unwrap an Err, panicking the
thread instead of logging and continuing. -/
theorem c2_drop_unwrap_panics :
    Session.drop_glue ⟨"tok", ⟨[("logout", "u")]⟩⟩ (fun _ _ _ => .error "connection refused")
      (fun _ => .error (.MalformedDocument "")) = (.panicked, 1) := rfl

/-! Helper lemmas about fail-fast list marshaling. -/

theorem exceptMapM_error_of_mem {α β : Type} (f : α → Except XmlError β) :
    ∀ (l : List α) (c : α) (err : XmlError), c ∈ l → f c = .error err →
    ∃ err2, l.mapM f = .error err2 := by
  intro l
  induction l with
  | nil => intro c err hc _; simp at hc
  | cons a as ih =>
    intro c err hc hf
    rw [List.mapM_cons]
    rcases List.mem_cons.mp hc with h | h
    · subst h
      rw [hf]
      exact ⟨err, rfl⟩
    · cases hfa : f a with
      | error e2 => exact ⟨e2, rfl⟩
      | ok b =>
        obtain ⟨err2, h2⟩ := ih c err h hf
        refine ⟨err2, ?_⟩
        rw [except_ok_bind, h2]
        rfl

theorem exceptMapM_ok {α β : Type} (f : α → Except XmlError β) :
    ∀ (l : List α) (res : List β), l.mapM f = .ok res →
    res.length = l.length ∧ ∀ c ∈ l, ∃ b, f c = .ok b := by
  intro l
  induction l with
  | nil =>
    intro res h
    rw [List.mapM_nil] at h
    simp only [except_pure, Except.ok.injEq] at h
    subst h
    exact ⟨rfl, by simp⟩
  | cons a as ih =>
    intro res h
    rw [List.mapM_cons] at h
    cases hfa : f a with
    | error e2 => rw [hfa, except_error_bind] at h; simp at h
    | ok b =>
      rw [hfa, except_ok_bind] at h
      cases hrest : as.mapM f with
      | error e2 => rw [hrest, except_error_bind] at h; simp at h
      | ok bs =>
        rw [hrest, except_ok_bind] at h
        simp only [except_pure, Except.ok.injEq] at h
        subst h
        obtain ⟨hlen, hmem⟩ := ih bs hrest
        refine ⟨by simp [hlen], ?_⟩
        intro c hc
        rcases List.mem_cons.mp hc with h | h
        · subst h; exact ⟨b, hfa⟩
        · exact hmem c h

/-- The first-failure view of one field extraction: the error of a failing
extraction, none for a success.  A record marshal built from a chain of
fallible extractions fails exactly with the first some in the list of these
views, taken in field order. -/
def errOf {α : Type} : Except XmlError α → Option XmlError
  | .ok _ => none
  | .error er => some er

theorem bind_error_iff {α β : Type} (x : Except XmlError α) (k : α → Except XmlError β)
    (rest : List (Option XmlError)) (err : XmlError)
    (h : ∀ v, x = .ok v → ((k v = .error err) ↔ rest.findSome? id = some err)) :
    ((x >>= k) = .error err) ↔ ((errOf x :: rest).findSome? id = some err) := by
  cases x with
  | error e => simp [except_error_bind, errOf, List.findSome?_cons]
  | ok v =>
    rw [except_ok_bind]
    simpa [errOf, List.findSome?_cons] using h v rfl

/-! Claim C4. -/

def typedLeaf (nm ty txt : String) : Element := .mk nm [("type", ty)] [.Text txt]

def c4SpaceFields : List XMLNode :=
  [ .Element (typedLeaf "homePage" "xsd:long" "7"),
    .Element (typedLeaf "key" "xsd:string" "K"),
    .Element (typedLeaf "name" "xsd:string" "Demo"),
    .Element (typedLeaf "type" "xsd:string" "global"),
    .Element (typedLeaf "url" "xsd:string" "http://x") ]

def c4SpaceNoDesc : Element := .mk "getSpaceReturn" [] c4SpaceFields

def c4SpaceWithDesc : Element :=
  .mk "getSpaceReturn" [] (.Element (.mk "description" [] [.Text "d"]) :: c4SpaceFields)

def c4Child : Element :=
  .mk "child" []
    [ .Element (typedLeaf "id" "xsd:long" "1"),
      .Element (typedLeaf "space" "xsd:string" "S"),
      .Element (typedLeaf "parentId" "xsd:long" "0"),
      .Element (typedLeaf "title" "xsd:string" "T"),
      .Element (typedLeaf "url" "xsd:string" "u") ]

def c4ChildrenNode : Element := .mk "getChildrenReturn" [] [.Element c4Child, .Text "\n"]

/-- Claim C4, counterexample, in two parts.  Space: a missing description child
fails the whole marshal with NotFoundAtPath while the same element with the
description child present marshals successfully, contradicting the claim that
for every record type an optional field failure degrades to an absent field.
Children: the sole element child of c4ChildrenNode marshals fine on its own,
yet the list marshal of the node fails on its text child, contradicting the
claim that only the direct element children are marshaled (which would predict
a successful one-element list). -/
theorem c4_counterexample :
    Space.from_node (.Element c4SpaceNoDesc) = .error (.NotFoundAtPath ["description"]) ∧
    Space.from_node (.Element c4SpaceWithDesc) =
      .ok ⟨none, 7, "K", "Demo", none, "global", "http://x"⟩ ∧
    PageSummary.from_node (.Element c4Child) = .ok ⟨1, "S", 0, "T", "u"⟩ ∧
    get_children_marshal (.Element c4ChildrenNode) = .error (.ExpectedElement (.Text "\n")) :=
  ⟨rfl, rfl, rfl, rfl⟩

/-- Claim C4 (amended): each of the five record marshals fails exactly when one
of its fallible field extractions fails, and then with the first failure in
field order (fail-fast, no partial record); an Option-typed field of
AttachmentResponse and RemoteServerInfo equals the Result::ok projection of
its extraction (absent on failure); for Space the Option-typed description and
space_group fields still take part in the fail-fast chain through their path
lookup, so only absent text degrades to an absent field; and the get_children
marshal iterates every direct child node, element or not, any one child's
failure failing the whole list, while a successful marshal covers every child
and produces no partial list. -/
theorem c4_marshal_policy :
    (∀ (dtp : String → Option Int) (e : Element) (err : XmlError),
      AttachmentResponse.from_node dtp (.Element e) = .error err ↔
      ([ errOf ((e.get_at_path ["fileSize"]).bind XMLNode.as_long),
         errOf ((e.get_at_path ["id"]).bind XMLNode.as_long),
         errOf ((e.get_at_path ["pageId"]).bind XMLNode.as_long) ].findSome? id = some err)) ∧
    (∀ (dtp : String → Option Int) (e : Element) (r : AttachmentResponse),
      AttachmentResponse.from_node dtp (.Element e) = .ok r →
      r.comment = ((e.get_at_path ["comment"]).bind XMLNode.as_string).toOption ∧
      r.content_type = ((e.get_at_path ["contentType"]).bind XMLNode.as_string).toOption ∧
      r.created = ((e.get_at_path ["created"]).bind (XMLNode.as_datetime dtp)).toOption ∧
      r.creator = ((e.get_at_path ["creator"]).bind XMLNode.as_string).toOption ∧
      r.file_name = ((e.get_at_path ["fileName"]).bind XMLNode.as_string).toOption ∧
      r.title = ((e.get_at_path ["title"]).bind XMLNode.as_string).toOption ∧
      r.url = ((e.get_at_path ["url"]).bind XMLNode.as_string).toOption) ∧
    (∀ (e : Element) (err : XmlError),
      RemoteServerInfo.from_node (.Element e) = .error err ↔
      ([ errOf ((e.get_at_path ["developmentBuild"]).bind XMLNode.as_boolean),
         errOf ((e.get_at_path ["majorVersion"]).bind XMLNode.as_int),
         errOf ((e.get_at_path ["minorVersion"]).bind XMLNode.as_int),
         errOf ((e.get_at_path ["patchLevel"]).bind XMLNode.as_int) ].findSome? id = some err)) ∧
    (∀ (e : Element) (r : RemoteServerInfo),
      RemoteServerInfo.from_node (.Element e) = .ok r →
      r.base_url = ((e.get_at_path ["baseUrl"]).bind XMLNode.as_string).toOption ∧
      r.build_id = ((e.get_at_path ["buildId"]).bind XMLNode.as_string).toOption) ∧
    (∀ (dtp : String → Option Int) (e : Element) (err : XmlError),
      Page.from_node dtp (.Element e) = .error err ↔
      ([ errOf ((e.get_at_path ["id"]).bind XMLNode.as_long),
         errOf ((e.get_at_path ["space"]).bind XMLNode.as_string),
         errOf ((e.get_at_path ["parentId"]).bind XMLNode.as_long),
         errOf ((e.get_at_path ["title"]).bind XMLNode.as_string),
         errOf ((e.get_at_path ["url"]).bind XMLNode.as_string),
         errOf ((e.get_at_path ["version"]).bind XMLNode.as_int),
         errOf ((e.get_at_path ["content"]).bind XMLNode.as_string),
         errOf ((e.get_at_path ["created"]).bind (XMLNode.as_datetime dtp)),
         errOf ((e.get_at_path ["creator"]).bind XMLNode.as_string),
         errOf ((e.get_at_path ["modified"]).bind (XMLNode.as_datetime dtp)),
         errOf ((e.get_at_path ["modifier"]).bind XMLNode.as_string),
         errOf ((e.get_at_path ["homePage"]).bind XMLNode.as_boolean),
         errOf ((e.get_at_path ["contentStatus"]).bind XMLNode.as_string),
         errOf ((e.get_at_path ["current"]).bind XMLNode.as_boolean) ].findSome? id = some err)) ∧
    (∀ (e : Element) (err : XmlError),
      PageSummary.from_node (.Element e) = .error err ↔
      ([ errOf ((e.get_at_path ["id"]).bind XMLNode.as_long),
         errOf ((e.get_at_path ["space"]).bind XMLNode.as_string),
         errOf ((e.get_at_path ["parentId"]).bind XMLNode.as_long),
         errOf ((e.get_at_path ["title"]).bind XMLNode.as_string),
         errOf ((e.get_at_path ["url"]).bind XMLNode.as_string) ].findSome? id = some err)) ∧
    (∀ (e : Element) (err : XmlError),
      Space.from_node (.Element e) = .error err ↔
      ([ errOf (e.get_at_path ["description"]),
         errOf ((e.get_at_path ["homePage"]).bind XMLNode.as_long),
         errOf ((e.get_at_path ["key"]).bind XMLNode.as_string),
         errOf ((e.get_at_path ["name"]).bind XMLNode.as_string),
         errOf (e.get_at_path ["name"]),
         errOf ((e.get_at_path ["type"]).bind XMLNode.as_string),
         errOf ((e.get_at_path ["url"]).bind XMLNode.as_string) ].findSome? id = some err)) ∧
    (∀ (e : Element) (c : XMLNode) (err : XmlError),
      c ∈ e.children → PageSummary.from_node c = .error err →
      ∃ err2, get_children_marshal (.Element e) = .error err2) ∧
    (∀ (e : Element) (l : List PageSummary),
      get_children_marshal (.Element e) = .ok l →
      l.length = e.children.length ∧ ∀ c ∈ e.children, ∃ s, PageSummary.from_node c = .ok s) := by
  refine ⟨?_, ?_, ?_, ?_, ?_, ?_, ?_, ?_, ?_⟩
  · intro dtp e err
    simp only [AttachmentResponse.from_node]
    iterate 3 (apply bind_error_iff; intro _ _)
    simp
  · intro dtp e r h
    simp only [AttachmentResponse.from_node] at h
    cases hfs : (e.get_at_path ["fileSize"]).bind XMLNode.as_long with
    | error e2 => rw [hfs, except_error_bind] at h; simp at h
    | ok v1 =>
      rw [hfs, except_ok_bind] at h
      cases hid : (e.get_at_path ["id"]).bind XMLNode.as_long with
      | error e2 => rw [hid, except_error_bind] at h; simp at h
      | ok v2 =>
        rw [hid, except_ok_bind] at h
        cases hpg : (e.get_at_path ["pageId"]).bind XMLNode.as_long with
        | error e2 => rw [hpg, except_error_bind] at h; simp at h
        | ok v3 =>
          rw [hpg, except_ok_bind] at h
          simp only [Except.ok.injEq] at h
          subst h
          exact ⟨rfl, rfl, rfl, rfl, rfl, rfl, rfl⟩
  · intro e err
    simp only [RemoteServerInfo.from_node]
    iterate 4 (apply bind_error_iff; intro _ _)
    simp
  · intro e r h
    simp only [RemoteServerInfo.from_node] at h
    cases hdb : (e.get_at_path ["developmentBuild"]).bind XMLNode.as_boolean with
    | error e2 => rw [hdb, except_error_bind] at h; simp at h
    | ok v1 =>
      rw [hdb, except_ok_bind] at h
      cases hma : (e.get_at_path ["majorVersion"]).bind XMLNode.as_int with
      | error e2 => rw [hma, except_error_bind] at h; simp at h
      | ok v2 =>
        rw [hma, except_ok_bind] at h
        cases hmi : (e.get_at_path ["minorVersion"]).bind XMLNode.as_int with
        | error e2 => rw [hmi, except_error_bind] at h; simp at h
        | ok v3 =>
          rw [hmi, except_ok_bind] at h
          cases hpa : (e.get_at_path ["patchLevel"]).bind XMLNode.as_int with
          | error e2 => rw [hpa, except_error_bind] at h; simp at h
          | ok v4 =>
            rw [hpa, except_ok_bind] at h
            simp only [Except.ok.injEq] at h
            subst h
            exact ⟨rfl, rfl⟩
  · intro dtp e err
    simp only [Page.from_node]
    iterate 14 (apply bind_error_iff; intro _ _)
    simp
  · intro e err
    simp only [PageSummary.from_node]
    iterate 5 (apply bind_error_iff; intro _ _)
    simp
  · intro e err
    simp only [Space.from_node]
    iterate 7 (apply bind_error_iff; intro _ _)
    simp
  · intro e c err hc hf
    obtain ⟨err2, h2⟩ := exceptMapM_error_of_mem PageSummary.from_node e.children c err hc hf
    refine ⟨err2, ?_⟩
    simp only [get_children_marshal, XMLNode.into_element, except_ok_bind]
    exact h2
  · intro e l h
    simp only [get_children_marshal, XMLNode.into_element, except_ok_bind] at h
    exact exceptMapM_ok PageSummary.from_node e.children l h

def c4AttBare : Element := .mk "addAttachmentReturn" [] []

def c4AttNoPageId : Element :=
  .mk "addAttachmentReturn" []
    [ .Element (typedLeaf "fileSize" "xsd:long" "10"),
      .Element (typedLeaf "id" "xsd:long" "11") ]

/-- Claim C4, witness: an attachment response element with no fileSize child
fails the whole marshal with the fileSize path error, and one where fileSize
and id extract fine but pageId is missing fails with the pageId path error —
a later required field also fails the record, with its own first failure. -/
theorem c4_policy_witness :
    AttachmentResponse.from_node (fun _ => none) (.Element c4AttBare) =
      .error (.NotFoundAtPath ["fileSize"]) ∧
    AttachmentResponse.from_node (fun _ => none) (.Element c4AttNoPageId) =
      .error (.NotFoundAtPath ["pageId"]) :=
  ⟨(c4_marshal_policy.1 (fun _ => none) c4AttBare (.NotFoundAtPath ["fileSize"])).mpr rfl,
   (c4_marshal_policy.1 (fun _ => none) c4AttNoPageId (.NotFoundAtPath ["pageId"])).mpr rfl⟩

/-! Claim C10. -/

def c10Space : Element :=
  .mk "getSpaceReturn" []
    (.Element (.mk "description" [] [.Text "d"]) ::
      .Element (.mk "spaceGroup" [] [.Text "G"]) :: c4SpaceFields)

def c10Record : Space := ⟨none, 7, "K", "Demo", none, "global", "http://x"⟩

def c10NameChild : Element := typedLeaf "name" "xsd:string" "Demo"

/-- Claim C10, counterexample: the marshal of a space tree whose name element
holds text "Demo" (and which even carries a spaceGroup child with text "G")
succeeds with space_group none, not some "Demo": space_group never equals the
text content of the name element. -/
theorem c10_counterexample :
    Space.from_node (.Element c10Space) = .ok c10Record ∧
    c10NameChild.get_text = some "Demo" ∧
    c10Record.space_group ≠ some "Demo" :=
  ⟨rfl, rfl, by simp [c10Record]⟩

/-- Claim C10 (amended): space_group is computed from the "name" child path,
so any spaceGroup child of the wire tree is indeed ignored, but the navigator
returns the name element as an element node and as_text of an element node is
none, so space_group is none in every successfully marshaled Space — it never
equals the text content of the name element.  The description field degrades
the same way. -/
theorem c10_space_group_always_none (node : XMLNode) (sp : Space)
    (h : Space.from_node node = .ok sp) :
    sp.space_group = none ∧ sp.description = none := by
  cases node with
  | Text s => simp [Space.from_node] at h
  | CData s => simp [Space.from_node] at h
  | Element e =>
    simp only [Space.from_node] at h
    cases hd : e.get_at_path ["description"] with
    | error e2 => rw [hd, except_error_bind] at h; simp at h
    | ok nd =>
      rw [hd, except_ok_bind] at h
      cases hhp : (e.get_at_path ["homePage"]).bind XMLNode.as_long with
      | error e2 => rw [hhp, except_error_bind] at h; simp at h
      | ok v1 =>
        rw [hhp, except_ok_bind] at h
        cases hk : (e.get_at_path ["key"]).bind XMLNode.as_string with
        | error e2 => rw [hk, except_error_bind] at h; simp at h
        | ok v2 =>
          rw [hk, except_ok_bind] at h
          cases hn : (e.get_at_path ["name"]).bind XMLNode.as_string with
          | error e2 => rw [hn, except_error_bind] at h; simp at h
          | ok v3 =>
            rw [hn, except_ok_bind] at h
            cases hg : e.get_at_path ["name"] with
            | error e2 => rw [hg, except_error_bind] at h; simp at h
            | ok ng =>
              rw [hg, except_ok_bind] at h
              cases ht : (e.get_at_path ["type"]).bind XMLNode.as_string with
              | error e2 => rw [ht, except_error_bind] at h; simp at h
              | ok v4 =>
                rw [ht, except_ok_bind] at h
                cases hu : (e.get_at_path ["url"]).bind XMLNode.as_string with
                | error e2 => rw [hu, except_error_bind] at h; simp at h
                | ok v5 =>
                  rw [hu, except_ok_bind] at h
                  simp only [Except.ok.injEq] at h
                  subst h
                  rw [get_at_path_eq_descend] at hd hg
                  obtain ⟨ed, hed⟩ := descend_ok_element ["description"] e nd hd
                  obtain ⟨eg, heg⟩ := descend_ok_element ["name"] e ng hg
                  subst hed
                  subst heg
                  exact ⟨rfl, rfl⟩

/-- Claim C10, witness: the concrete successful marshal of c10Space has
space_group none (and description none). -/
theorem c10_always_none_witness :
    c10Record.space_group = none ∧ c10Record.description = none :=
  c10_space_group_always_none (.Element c10Space) c10Record rfl

end Confluence
